import Mathlib

/-!
Verification of the regulatory-domain intersection program (src/intersect.c).

The C data structures (`struct ieee80211_freq_range`, `struct
ieee80211_power_rule`, `struct ieee80211_reg_rule`, `struct
ieee80211_regdomain`, declared in reglib.h) are embedded as Lean
structures.  All frequency fields are `__u32` in C; they are modelled as
`Nat`, with the one place where unsigned wrap-around matters (the
`freq_diff` subtraction in `reg_rules_intersect`) computed explicitly
modulo `2^32`.  Theorems that depend on the fields actually fitting in a
32-bit word carry an explicit well-formedness hypothesis.
-/

/-- `struct ieee80211_freq_range` (reglib.h): all fields are `__u32` kHz. -/
structure ieee80211_freq_range where
  start_freq_khz : Nat
  end_freq_khz : Nat
  max_bandwidth_khz : Nat
deriving DecidableEq

/-- `struct ieee80211_power_rule` (reglib.h): power limits.  The spec
describes `max_eirp` and `max_antenna_gain` as signed quantities, so they
are modelled as `Int`; only their ordering is used by the intersection. -/
structure ieee80211_power_rule where
  max_eirp : Int
  max_antenna_gain : Int
deriving DecidableEq

/-- `struct ieee80211_reg_rule` (reglib.h): one frequency range, one power
rule and a `__u32` flags bitmask. -/
structure ieee80211_reg_rule where
  freq_range : ieee80211_freq_range
  power_rule : ieee80211_power_rule
  flags : Nat
deriving DecidableEq

/-- `struct ieee80211_regdomain` (reglib.h): a 2-character country code and
a flexible array of rules.  `n_reg_rules` is the list length. -/
structure ieee80211_regdomain where
  alpha2 : Char × Char
  reg_rules : List ieee80211_reg_rule
deriving DecidableEq

/-- The `n_reg_rules` field of the C struct: number of rules. -/
def ieee80211_regdomain.n_reg_rules (rd : ieee80211_regdomain) : Nat :=
  rd.reg_rules.length

/-- The values a `__u32` field can take. -/
def U32 : Nat := 2 ^ 32

/-- A rule whose frequency fields fit in a 32-bit word, as every value of
the C type `__u32` does. -/
def rule_wf (r : ieee80211_reg_rule) : Prop :=
  r.freq_range.start_freq_khz < U32 ∧ r.freq_range.end_freq_khz < U32 ∧
    r.freq_range.max_bandwidth_khz < U32

instance (r : ieee80211_reg_rule) : Decidable (rule_wf r) := by
  unfold rule_wf; infer_instance

/-- Every rule of the domain is well formed. -/
def regdomain_wf (rd : ieee80211_regdomain) : Prop :=
  ∀ r ∈ rd.reg_rules, rule_wf r

instance (rd : ieee80211_regdomain) : Decidable (regdomain_wf rd) := by
  unfold regdomain_wf; infer_instance

/-- Modelled from the spec: `is_valid_reg_rule` is defined in reglib.c,
which is not part of src/.  Per the spec a rule is valid only if its
frequency range satisfies `start ≤ end` and
`max_bandwidth_khz ≤ end − start` (the external jurisdiction-specific
semantic checks are opaque to the core and modelled as always passing). -/
def is_valid_reg_rule (r : ieee80211_reg_rule) : Bool :=
  decide (r.freq_range.start_freq_khz ≤ r.freq_range.end_freq_khz) &&
    decide (r.freq_range.max_bandwidth_khz ≤
      r.freq_range.end_freq_khz - r.freq_range.start_freq_khz)

/-- `reg_rules_intersect` (src/intersect.c, lines 24-63).  The C function
writes the combined rule into an out-parameter and returns `0` on success
or `-EINVAL` when the combined rule fails `is_valid_reg_rule`; success is
modelled as `some` of the combined rule and `-EINVAL` as `none`.
`freq_diff` is the `__u32` subtraction `end - start`, which wraps modulo
`2^32`. -/
def reg_rules_intersect (rule1 rule2 : ieee80211_reg_rule) :
    Option ieee80211_reg_rule :=
  let start_freq_khz := max rule1.freq_range.start_freq_khz
    rule2.freq_range.start_freq_khz
  let end_freq_khz := min rule1.freq_range.end_freq_khz
    rule2.freq_range.end_freq_khz
  let max_bandwidth_khz := min rule1.freq_range.max_bandwidth_khz
    rule2.freq_range.max_bandwidth_khz
  let freq_diff := (end_freq_khz + U32 - start_freq_khz) % U32
  let max_bandwidth_khz :=
    if max_bandwidth_khz > freq_diff then freq_diff else max_bandwidth_khz
  let intersected_rule : ieee80211_reg_rule :=
    { freq_range :=
        { start_freq_khz := start_freq_khz
          end_freq_khz := end_freq_khz
          max_bandwidth_khz := max_bandwidth_khz }
      power_rule :=
        { max_eirp := min rule1.power_rule.max_eirp rule2.power_rule.max_eirp
          max_antenna_gain := min rule1.power_rule.max_antenna_gain
            rule2.power_rule.max_antenna_gain }
      flags := rule1.flags ||| rule2.flags }
  if is_valid_reg_rule intersected_rule then some intersected_rule else none

/-- The rules written by the fill pass of `regdom_intersect`
(src/intersect.c, lines 134-148): the M×N ordered pairs in outer-`rd1`,
inner-`rd2` order, keeping each successful intersection. -/
def cross_rules (l1 l2 : List ieee80211_reg_rule) : List ieee80211_reg_rule :=
  (l1.map (fun rule1 => l2.filterMap
    (fun rule2 => reg_rules_intersect rule1 rule2))).flatten

/-- `regdom_intersect` (src/intersect.c, lines 78-161).  A counting pass
over the M×N pairs computes `num_rules`; a zero count is the
"num_rules == 0" failure (`NULL` return, modelled as `none`); the fill
pass produces the rules, the `rule_idx != num_rules` inconsistency check
fails with `NULL`, and on success the result is tagged with the sentinel
country code `'9','9'`. -/
def regdom_intersect (rd1 rd2 : ieee80211_regdomain) :
    Option ieee80211_regdomain :=
  let num_rules := (rd1.reg_rules.map (fun rule1 =>
    rd2.reg_rules.countP
      (fun rule2 => (reg_rules_intersect rule1 rule2).isSome))).sum
  if num_rules = 0 then none
  else
    let rules := cross_rules rd1.reg_rules rd2.reg_rules
    if rules.length = num_rules then
      some { alpha2 := ('9', '9'), reg_rules := rules }
    else none

/-- Modelled from the spec: `is_world_regdom` is defined in reglib.c,
which is not part of src/.  Per the spec the world placeholder is the
alpha2 sentinel `"00"`. -/
def is_world_regdom (alpha2 : Char × Char) : Bool :=
  alpha2 = ('0', '0')

/-- One `malloc`-backed domain acquisition (`country2rd` or the
`regdom_intersect` result) or one `free` call, identified by a serial
allocation token. -/
inductive AllocEvent where
  | alloc (tok : Nat)
  | free (tok : Nat)
deriving DecidableEq

/-- The state `main` (src/intersect.c, lines 163-335) carries across loop
iterations: the three domain pointers `prev_world`, `rd`, `world` (each
`none` = `NULL`, otherwise the allocation token and the domain it points
to), the `intersected` counter, the next fresh allocation token, the
trace of allocation/release events so far, whether `goto out` was taken
with an error, and whether `BUG_ON` fired. -/
structure ReduceState where
  prev_world : Option (Nat × ieee80211_regdomain)
  rd : Option (Nat × ieee80211_regdomain)
  world : Option (Nat × ieee80211_regdomain)
  intersected : Nat
  next_tok : Nat
  events : List AllocEvent
  failed : Bool
  bug : Bool
deriving DecidableEq

/-- The state at the top of `main`'s country loop. -/
def init_state : ReduceState :=
  { prev_world := none, rd := none, world := none, intersected := 0,
    next_tok := 0, events := [], failed := false, bug := false }

/-- One iteration of `main`'s country loop (src/intersect.c, lines
233-315): skip world placeholders; free the previous iteration's `rd` and
rotate `world` into `prev_world` (`BUG_ON(!world)` exits); allocate the
current country's domain into `rd`; on the first real country just move it
into `prev_world`; otherwise intersect, aborting the whole run on failure
(`goto out`) and otherwise storing the freshly allocated result in
`world`. -/
def reduce_step (st : ReduceState) (country : ieee80211_regdomain) :
    ReduceState :=
  if st.failed || st.bug then st
  else if is_world_regdom country.alpha2 then st
  else
    let st1 :=
      match st.rd with
      | some (tok, _) =>
          let stf := { st with events := st.events ++ [AllocEvent.free tok],
                               rd := none }
          if stf.world.isNone then { stf with bug := true }
          else { stf with prev_world := stf.world, world := none }
      | none => st
    if st1.bug then st1
    else
      let tok := st1.next_tok
      let st2 := { st1 with rd := some (tok, country), next_tok := tok + 1,
                            events := st1.events ++ [AllocEvent.alloc tok] }
      match st2.prev_world with
      | none => { st2 with prev_world := st2.rd, rd := none }
      | some (_, pw) =>
          match regdom_intersect pw country with
          | none => { st2 with failed := true }
          | some w =>
              { st2 with world := some (st2.next_tok, w),
                         next_tok := st2.next_tok + 1,
                         events := st2.events ++ [AllocEvent.alloc st2.next_tok],
                         intersected := st2.intersected + 1 }

/-- What `main` does after the loop: whether `print_regdom` was reached
and the domain pointer it was handed (`none` = `NULL`), the final
`intersected` count, the full allocation/release trace, and the process
return value. -/
structure MainResult where
  renderer_called : Bool
  rendered : Option ieee80211_regdomain
  intersected : Nat
  events : List AllocEvent
  ret : Int
deriving DecidableEq

/-- One `if (p) free(p);` line of `main`'s `out:` epilogue. -/
def free_opt (events : List AllocEvent)
    (p : Option (Nat × ieee80211_regdomain)) : List AllocEvent :=
  match p with
  | some (tok, _) => events ++ [AllocEvent.free tok]
  | none => events

/-- The reduction `main` performs over the decoded per-country domains
(src/intersect.c, lines 233-335): fold the loop body over the countries in
encounter order, then, unless `BUG_ON` exited, run the epilogue —
`print_regdom(world)` when no error occurred, and the `out:` frees of
`world`, `rd` and `prev_world` in that order.  An intersection failure
returns `-ENOMEM` (`-12`). -/
def main_reduce (countries : List ieee80211_regdomain) : MainResult :=
  let st := countries.foldl reduce_step init_state
  if st.bug then
    { renderer_called := false, rendered := none,
      intersected := st.intersected, events := st.events, ret := -1 }
  else
    let events := free_opt (free_opt (free_opt st.events st.world) st.rd)
      st.prev_world
    if st.failed then
      { renderer_called := false, rendered := none,
        intersected := st.intersected, events := events, ret := -12 }
    else
      { renderer_called := true, rendered := st.world.map Prod.snd,
        intersected := st.intersected, events := events, ret := 0 }

/-- A representative 2.4 GHz rule used as concrete test data. -/
def sample_rule : ieee80211_reg_rule :=
  { freq_range :=
      { start_freq_khz := 2400000, end_freq_khz := 2483500,
        max_bandwidth_khz := 40000 }
    power_rule := { max_eirp := 2000, max_antenna_gain := 600 }
    flags := 0 }

/-- A narrower 2.4 GHz rule used as concrete test data. -/
def sample_rule2 : ieee80211_reg_rule :=
  { freq_range :=
      { start_freq_khz := 2400000, end_freq_khz := 2450000,
        max_bandwidth_khz := 20000 }
    power_rule := { max_eirp := 1700, max_antenna_gain := 600 }
    flags := 1 }

/-- A 5 GHz rule disjoint from the 2.4 GHz samples. -/
def sample_rule5g : ieee80211_reg_rule :=
  { freq_range :=
      { start_freq_khz := 5725000, end_freq_khz := 5850000,
        max_bandwidth_khz := 20000 }
    power_rule := { max_eirp := 2000, max_antenna_gain := 600 }
    flags := 0 }

/-- Concrete one-rule domain "AA". -/
def dom_A : ieee80211_regdomain :=
  { alpha2 := ('A', 'A'), reg_rules := [sample_rule] }

/-- Concrete one-rule domain "BB". -/
def dom_B : ieee80211_regdomain :=
  { alpha2 := ('B', 'B'), reg_rules := [sample_rule2] }

/-- Concrete one-rule domain "CC". -/
def dom_C : ieee80211_regdomain :=
  { alpha2 := ('C', 'C'), reg_rules := [sample_rule] }

/-- Concrete one-rule domain "DD" whose only rule is disjoint from
`dom_A`'s. -/
def dom_D : ieee80211_regdomain :=
  { alpha2 := ('D', 'D'), reg_rules := [sample_rule5g] }

/-- Characterisation of `reg_rules_intersect` on 32-bit-clean rules: it
succeeds exactly when the two frequency ranges overlap, and then the
combined rule is given field by field. -/
theorem reg_rules_intersect_eq (r1 r2 : ieee80211_reg_rule)
    (h1 : rule_wf r1) (h2 : rule_wf r2) :
    reg_rules_intersect r1 r2 =
      if max r1.freq_range.start_freq_khz r2.freq_range.start_freq_khz ≤
          min r1.freq_range.end_freq_khz r2.freq_range.end_freq_khz then
        some
          { freq_range :=
              { start_freq_khz := max r1.freq_range.start_freq_khz
                  r2.freq_range.start_freq_khz
                end_freq_khz := min r1.freq_range.end_freq_khz
                  r2.freq_range.end_freq_khz
                max_bandwidth_khz :=
                  min (min r1.freq_range.max_bandwidth_khz
                      r2.freq_range.max_bandwidth_khz)
                    (min r1.freq_range.end_freq_khz
                        r2.freq_range.end_freq_khz -
                      max r1.freq_range.start_freq_khz
                        r2.freq_range.start_freq_khz) }
            power_rule :=
              { max_eirp := min r1.power_rule.max_eirp r2.power_rule.max_eirp
                max_antenna_gain := min r1.power_rule.max_antenna_gain
                  r2.power_rule.max_antenna_gain }
            flags := r1.flags ||| r2.flags }
      else none := by
  obtain ⟨hs1, he1, hb1⟩ := h1
  obtain ⟨hs2, he2, hb2⟩ := h2
  simp only [U32] at hs1 he1 hb1 hs2 he2 hb2
  simp only [reg_rules_intersect, is_valid_reg_rule, U32]
  by_cases hle : max r1.freq_range.start_freq_khz
      r2.freq_range.start_freq_khz ≤
      min r1.freq_range.end_freq_khz r2.freq_range.end_freq_khz
  · have hd : (min r1.freq_range.end_freq_khz r2.freq_range.end_freq_khz +
        2 ^ 32 -
        max r1.freq_range.start_freq_khz r2.freq_range.start_freq_khz) %
        2 ^ 32 =
        min r1.freq_range.end_freq_khz r2.freq_range.end_freq_khz -
          max r1.freq_range.start_freq_khz r2.freq_range.start_freq_khz := by
      omega
    rw [hd]
    have hb : (if min r1.freq_range.max_bandwidth_khz
          r2.freq_range.max_bandwidth_khz >
          min r1.freq_range.end_freq_khz r2.freq_range.end_freq_khz -
            max r1.freq_range.start_freq_khz r2.freq_range.start_freq_khz
        then
          min r1.freq_range.end_freq_khz r2.freq_range.end_freq_khz -
            max r1.freq_range.start_freq_khz r2.freq_range.start_freq_khz
        else
          min r1.freq_range.max_bandwidth_khz
            r2.freq_range.max_bandwidth_khz) =
        min (min r1.freq_range.max_bandwidth_khz
            r2.freq_range.max_bandwidth_khz)
          (min r1.freq_range.end_freq_khz r2.freq_range.end_freq_khz -
            max r1.freq_range.start_freq_khz
              r2.freq_range.start_freq_khz) := by
      split <;> omega
    rw [hb]
    simp [hle, Nat.min_le_right]
  · simp [hle]

/-- C5: `intersect_rule` is commutative: for every pair of rules,
intersecting them in either order yields the same outcome — both fail or
both succeed with equal resulting rules. -/
theorem claim_C5 (r1 r2 : ieee80211_reg_rule) :
    reg_rules_intersect r1 r2 = reg_rules_intersect r2 r1 := by
  simp only [reg_rules_intersect]
  rw [Nat.max_comm, Nat.min_comm r1.freq_range.end_freq_khz,
    Nat.min_comm r1.freq_range.max_bandwidth_khz,
    min_comm r1.power_rule.max_eirp, min_comm r1.power_rule.max_antenna_gain,
    Nat.lor_comm]

/-- On success, the combined rule passed `is_valid_reg_rule`, and the
fields that do not involve the bandwidth clamp are the stated max/min
combinations. -/
theorem reg_rules_intersect_some_valid (r1 r2 r : ieee80211_reg_rule)
    (h : reg_rules_intersect r1 r2 = some r) :
    is_valid_reg_rule r = true ∧
    r.freq_range.start_freq_khz =
      max r1.freq_range.start_freq_khz r2.freq_range.start_freq_khz ∧
    r.freq_range.end_freq_khz =
      min r1.freq_range.end_freq_khz r2.freq_range.end_freq_khz ∧
    r.power_rule.max_eirp =
      min r1.power_rule.max_eirp r2.power_rule.max_eirp ∧
    r.power_rule.max_antenna_gain =
      min r1.power_rule.max_antenna_gain r2.power_rule.max_antenna_gain ∧
    r.flags = (r1.flags ||| r2.flags) := by
  simp only [reg_rules_intersect] at h
  split at h
  all_goals split at h
  all_goals first
    | (cases h; exact ⟨by assumption, rfl, rfl, rfl, rfl, rfl⟩)
    | exact absurd h (by simp)

/-- C1: on success of `intersect_rule`, the combined rule's start is the
max of the inputs' starts, its end the min of the ends, its bandwidth the
min of the inputs' bandwidths clamped down to the intersected span when it
exceeds it, its power limits the min of the inputs', and its flags the
bitwise union of the inputs'. -/
theorem claim_C1 (r1 r2 r : ieee80211_reg_rule)
    (h1 : rule_wf r1) (h2 : rule_wf r2)
    (h : reg_rules_intersect r1 r2 = some r) :
    r.freq_range.start_freq_khz =
      max r1.freq_range.start_freq_khz r2.freq_range.start_freq_khz ∧
    r.freq_range.end_freq_khz =
      min r1.freq_range.end_freq_khz r2.freq_range.end_freq_khz ∧
    r.freq_range.max_bandwidth_khz =
      (if min r1.freq_range.max_bandwidth_khz
          r2.freq_range.max_bandwidth_khz >
          r.freq_range.end_freq_khz - r.freq_range.start_freq_khz then
        r.freq_range.end_freq_khz - r.freq_range.start_freq_khz
      else
        min r1.freq_range.max_bandwidth_khz
          r2.freq_range.max_bandwidth_khz) ∧
    r.power_rule.max_eirp =
      min r1.power_rule.max_eirp r2.power_rule.max_eirp ∧
    r.power_rule.max_antenna_gain =
      min r1.power_rule.max_antenna_gain r2.power_rule.max_antenna_gain ∧
    r.flags = (r1.flags ||| r2.flags) := by
  rw [reg_rules_intersect_eq r1 r2 h1 h2] at h
  split at h
  · cases h
    refine ⟨rfl, rfl, ?_, rfl, rfl, rfl⟩
    dsimp only
    split <;> omega
  · exact absurd h (by simp)

/-- The rule produced by intersecting `sample_rule` with `sample_rule2`. -/
def sample_intersection : ieee80211_reg_rule :=
  { freq_range :=
      { start_freq_khz := 2400000, end_freq_khz := 2450000,
        max_bandwidth_khz := 20000 }
    power_rule := { max_eirp := 1700, max_antenna_gain := 600 }
    flags := 1 }

/-- C1 witness: `claim_C1` applied to the concrete successful
intersection of `sample_rule` and `sample_rule2`. -/
theorem claim_C1_witness :
    reg_rules_intersect sample_rule sample_rule2 = some sample_intersection ∧
    sample_intersection.freq_range.start_freq_khz =
      max sample_rule.freq_range.start_freq_khz
        sample_rule2.freq_range.start_freq_khz := by
  refine ⟨by decide, ?_⟩
  exact (claim_C1 sample_rule sample_rule2 sample_intersection (by decide)
    (by decide) (by decide)).1

/-- C3: on success of `intersect_rule`, the result's range is contained in
both inputs' ranges and its bandwidth does not exceed its own span. -/
theorem claim_C3 (r1 r2 r : ieee80211_reg_rule)
    (h : reg_rules_intersect r1 r2 = some r) :
    r1.freq_range.start_freq_khz ≤ r.freq_range.start_freq_khz ∧
    r2.freq_range.start_freq_khz ≤ r.freq_range.start_freq_khz ∧
    r.freq_range.end_freq_khz ≤ r1.freq_range.end_freq_khz ∧
    r.freq_range.end_freq_khz ≤ r2.freq_range.end_freq_khz ∧
    r.freq_range.max_bandwidth_khz ≤
      r.freq_range.end_freq_khz - r.freq_range.start_freq_khz := by
  obtain ⟨hv, hs, he, -, -, -⟩ := reg_rules_intersect_some_valid r1 r2 r h
  simp only [is_valid_reg_rule, Bool.and_eq_true, decide_eq_true_eq] at hv
  exact ⟨by omega, by omega, by omega, by omega, hv.2⟩

/-- C3 witness: `claim_C3` applied to the concrete successful
intersection of `sample_rule` and `sample_rule2`. -/
theorem claim_C3_witness :
    sample_rule.freq_range.start_freq_khz ≤
      sample_intersection.freq_range.start_freq_khz ∧
    sample_intersection.freq_range.max_bandwidth_khz ≤
      sample_intersection.freq_range.end_freq_khz -
        sample_intersection.freq_range.start_freq_khz := by
  have h := claim_C3 sample_rule sample_rule2 sample_intersection (by decide)
  exact ⟨h.1, h.2.2.2.2⟩

/-- A `filterMap` keeps exactly the successes. -/
theorem length_filterMap_eq_countP {α β : Type} (f : α → Option β)
    (l : List α) :
    (l.filterMap f).length = l.countP (fun a => (f a).isSome) := by
  induction l with
  | nil => rfl
  | cons a t ih =>
    cases h : f a <;> simp [List.filterMap_cons, h, List.countP_cons, ih]

/-- The fill pass of `regdom_intersect` writes exactly as many rules as
the counting pass counted: the `rule_idx != num_rules` branch is dead. -/
theorem length_cross_rules (l1 l2 : List ieee80211_reg_rule) :
    (cross_rules l1 l2).length =
      (l1.map (fun rule1 => l2.countP
        (fun rule2 => (reg_rules_intersect rule1 rule2).isSome))).sum := by
  induction l1 with
  | nil => rfl
  | cons a t ih =>
    simp only [cross_rules, List.map_cons, List.flatten_cons,
      List.length_append, List.sum_cons] at *
    rw [length_filterMap_eq_countP, ih]

/-- `regdom_intersect` in closed form: it fails exactly when no pair of
rules intersects validly, and otherwise returns the sentinel-tagged
domain holding the fill-pass rules. -/
theorem regdom_intersect_eq (rd1 rd2 : ieee80211_regdomain) :
    regdom_intersect rd1 rd2 =
      if cross_rules rd1.reg_rules rd2.reg_rules = [] then none
      else some ⟨('9', '9'), cross_rules rd1.reg_rules rd2.reg_rules⟩ := by
  unfold regdom_intersect
  rw [← length_cross_rules]
  by_cases hc : cross_rules rd1.reg_rules rd2.reg_rules = []
  · simp [hc]
  · have hne : (cross_rules rd1.reg_rules rd2.reg_rules).length ≠ 0 := by
      simpa [List.length_eq_zero] using hc
    simp [hc, hne]

/-- A rule appears in the fill-pass output exactly when some ordered pair
of input rules intersects to it. -/
theorem mem_cross_rules (l1 l2 : List ieee80211_reg_rule)
    (r : ieee80211_reg_rule) :
    r ∈ cross_rules l1 l2 ↔
      ∃ x ∈ l1, ∃ y ∈ l2, reg_rules_intersect x y = some r := by
  simp [cross_rules]

/-- The number of ordered pairs of a rule of `l1` and a rule of `l2` on
which `intersect_rule` succeeds. -/
def succ_pairs (l1 l2 : List ieee80211_reg_rule) : Nat :=
  ((l1.map (fun x => l2.map (fun y => (x, y)))).flatten).countP
    (fun p => (reg_rules_intersect p.1 p.2).isSome)

/-- The fill pass produces one rule per successful ordered pair. -/
theorem succ_pairs_eq (l1 l2 : List ieee80211_reg_rule) :
    succ_pairs l1 l2 = (cross_rules l1 l2).length := by
  induction l1 with
  | nil => rfl
  | cons a t ih =>
    simp only [succ_pairs, cross_rules, List.map_cons, List.flatten_cons,
      List.countP_append, List.length_append] at *
    rw [List.countP_map, length_filterMap_eq_countP, ih]
    rfl

/-- The fill pass never produces more rules than the M×N cross product. -/
theorem length_cross_rules_le (l1 l2 : List ieee80211_reg_rule) :
    (cross_rules l1 l2).length ≤ l1.length * l2.length := by
  induction l1 with
  | nil => simp [cross_rules]
  | cons a t ih =>
    simp only [cross_rules, List.map_cons, List.flatten_cons,
      List.length_append, List.length_cons] at *
    have hrow := List.length_filterMap_le
      (fun rule2 => reg_rules_intersect a rule2) l2
    have hmul : (t.length + 1) * l2.length =
        l2.length + t.length * l2.length := by ring
    rw [hmul]
    exact Nat.add_le_add hrow ih

/-- C2: a successful `intersect_domain` result has exactly one rule per
successful ordered pair of input rules — hence at most M*N rules — and
when the successful-pair count is zero, `intersect_domain` fails. -/
theorem claim_C2 (rd1 rd2 : ieee80211_regdomain) :
    (∀ rd, regdom_intersect rd1 rd2 = some rd →
      rd.n_reg_rules = succ_pairs rd1.reg_rules rd2.reg_rules ∧
      rd.n_reg_rules ≤ rd1.n_reg_rules * rd2.n_reg_rules) ∧
    (succ_pairs rd1.reg_rules rd2.reg_rules = 0 →
      regdom_intersect rd1 rd2 = none) := by
  constructor
  · intro rd h
    rw [regdom_intersect_eq] at h
    split at h
    · exact absurd h (by simp)
    · cases h
      refine ⟨?_, length_cross_rules_le _ _⟩
      rw [succ_pairs_eq]
      rfl
  · intro h0
    rw [regdom_intersect_eq]
    rw [succ_pairs_eq] at h0
    simp [List.length_eq_zero.mp h0]

/-- The domain produced by intersecting `dom_A` with `dom_B`. -/
def dom_AB : ieee80211_regdomain :=
  { alpha2 := ('9', '9'), reg_rules := [sample_intersection] }

/-- C2 witness: `claim_C2` applied to the concrete success
`dom_A ∩ dom_B` and the concrete empty intersection `dom_A ∩ dom_D`. -/
theorem claim_C2_witness :
    dom_AB.n_reg_rules = succ_pairs dom_A.reg_rules dom_B.reg_rules ∧
    regdom_intersect dom_A dom_D = none :=
  ⟨((claim_C2 dom_A dom_B).1 dom_AB (by decide)).1,
    (claim_C2 dom_A dom_D).2 (by decide)⟩

/-- C4: when the two input ranges do not overlap — the min of the ends is
below the max of the starts — `intersect_rule` fails with the invalid-rule
signal, and a pair failing `intersect_rule` is silently excluded:
`intersect_domain` only ever fails because every pair failed, never
because some pair did. -/
theorem claim_C4 (r1 r2 : ieee80211_reg_rule)
    (h : min r1.freq_range.end_freq_khz r2.freq_range.end_freq_khz <
      max r1.freq_range.start_freq_khz r2.freq_range.start_freq_khz) :
    reg_rules_intersect r1 r2 = none ∧
    ∀ rd1 rd2 : ieee80211_regdomain, regdom_intersect rd1 rd2 = none →
      ∀ x ∈ rd1.reg_rules, ∀ y ∈ rd2.reg_rules,
        reg_rules_intersect x y = none := by
  constructor
  · have hno : ¬ (max r1.freq_range.start_freq_khz
        r2.freq_range.start_freq_khz ≤
        min r1.freq_range.end_freq_khz r2.freq_range.end_freq_khz) :=
      Nat.not_le.mpr h
    simp [reg_rules_intersect, is_valid_reg_rule, hno]
  · intro rd1 rd2 hnone x hx y hy
    rw [regdom_intersect_eq] at hnone
    split at hnone
    · rename_i hc
      cases hxy : reg_rules_intersect x y with
      | none => rfl
      | some r =>
        exact absurd ((mem_cross_rules _ _ r).mpr ⟨x, hx, y, hy, hxy⟩)
          (by simp [hc])
    · exact absurd hnone (by simp)

/-- C4 witness: `claim_C4` applied to the concrete disjoint pair
`sample_rule` (2.4 GHz) and `sample_rule5g` (5 GHz). -/
theorem claim_C4_witness :
    reg_rules_intersect sample_rule sample_rule5g = none :=
  (claim_C4 sample_rule sample_rule5g (by decide)).1

/-- C6: every domain returned by a successful `intersect_domain` carries
the sentinel country code "99", and each of its rules is the successful
intersection of a rule of the first input with a rule of the second — it
never contains a rule from a pair that failed the validity check. -/
theorem claim_C6 (rd1 rd2 rd : ieee80211_regdomain)
    (h : regdom_intersect rd1 rd2 = some rd) :
    rd.alpha2 = ('9', '9') ∧
    ∀ r ∈ rd.reg_rules, ∃ x ∈ rd1.reg_rules, ∃ y ∈ rd2.reg_rules,
      reg_rules_intersect x y = some r := by
  rw [regdom_intersect_eq] at h
  split at h
  · exact absurd h (by simp)
  · cases h
    exact ⟨rfl, fun r hr => (mem_cross_rules _ _ r).mp hr⟩

/-- C6 witness: `claim_C6` applied to the concrete success
`dom_A ∩ dom_B = dom_AB`. -/
theorem claim_C6_witness : dom_AB.alpha2 = ('9', '9') :=
  (claim_C6 dom_A dom_B dom_AB (by decide)).1

/-- C7 (code bug): on a singleton sequence the reduction terminates
successfully (`ret = 0`) with no intersection computed
(`intersected = 0`), but the domain handed to the external renderer
(`print_regdom(world)`) is the NULL `world` pointer, not the singleton
domain: the claim's "that domain unchanged" fails on the code. -/
theorem claim_C7 :
    (main_reduce [dom_A]).ret = 0 ∧
    (main_reduce [dom_A]).intersected = 0 ∧
    (main_reduce [dom_A]).renderer_called = true ∧
    (main_reduce [dom_A]).rendered = none := by decide

/-- C9 (code bug): in a successful three-domain reduction the first
domain (allocation token 0) is allocated once and never released — when
`prev_world = world` supersedes the accumulator on the third iteration,
the old accumulator is overwritten without a `free` — contradicting the
released-exactly-once claim. -/
theorem claim_C9 :
    (main_reduce [dom_A, dom_B, dom_C]).ret = 0 ∧
    (main_reduce [dom_A, dom_B, dom_C]).events.count (AllocEvent.alloc 0) = 1 ∧
    (main_reduce [dom_A, dom_B, dom_C]).events.count (AllocEvent.free 0) = 0 := by
  decide

/-- A successful `reg_rules_intersect` of 32-bit-clean rules is itself
32-bit clean. -/
theorem rule_wf_of_intersect (r1 r2 r : ieee80211_reg_rule)
    (h1 : rule_wf r1) (h2 : rule_wf r2)
    (h : reg_rules_intersect r1 r2 = some r) : rule_wf r := by
  obtain ⟨hv, hs, he, -, -, -⟩ := reg_rules_intersect_some_valid r1 r2 r h
  simp only [is_valid_reg_rule, Bool.and_eq_true, decide_eq_true_eq] at hv
  obtain ⟨hs1, he1, hb1⟩ := h1
  obtain ⟨hs2, he2, hb2⟩ := h2
  simp only [rule_wf, U32] at *
  omega

/-- Dropping a redundant wider span from a chain of minima: when `t` is
at most both candidate spans, either association of the clamped bandwidth
minimum collapses to the same value. -/
theorem min_bw_assoc (wa wb wc s1 s2 t : Nat) (h1 : t ≤ s1) (h2 : t ≤ s2) :
    wa ⊓ wb ⊓ s1 ⊓ wc ⊓ t = wa ⊓ (wb ⊓ wc ⊓ s2) ⊓ t := by
  omega

/-- The characterisation of `reg_rules_intersect`, stated on explicit
components so rewriting never leaves structure projections behind. -/
theorem reg_rules_intersect_eq_mk (s1 e1 w1 : Nat) (p1 g1 : Int) (f1 : Nat)
    (s2 e2 w2 : Nat) (p2 g2 : Int) (f2 : Nat)
    (hs1 : s1 < 2 ^ 32) (he1 : e1 < 2 ^ 32)
    (hs2 : s2 < 2 ^ 32) (he2 : e2 < 2 ^ 32) :
    reg_rules_intersect ⟨⟨s1, e1, w1⟩, ⟨p1, g1⟩, f1⟩
        ⟨⟨s2, e2, w2⟩, ⟨p2, g2⟩, f2⟩ =
      if max s1 s2 ≤ min e1 e2 then
        some ⟨⟨max s1 s2, min e1 e2, min (min w1 w2) (min e1 e2 - max s1 s2)⟩,
          ⟨min p1 p2, min g1 g2⟩, f1 ||| f2⟩
      else none := by
  simp only [reg_rules_intersect, is_valid_reg_rule, U32]
  by_cases hle : max s1 s2 ≤ min e1 e2
  · have hd : (min e1 e2 + 2 ^ 32 - max s1 s2) % 2 ^ 32 =
        min e1 e2 - max s1 s2 := by omega
    rw [hd]
    have hb : (if min w1 w2 > min e1 e2 - max s1 s2 then
        min e1 e2 - max s1 s2 else min w1 w2) =
        min (min w1 w2) (min e1 e2 - max s1 s2) := by
      split <;> omega
    rw [hb]
    simp [hle, Nat.min_le_right]
  · simp [hle]

/-- Chained `reg_rules_intersect` is independent of association order:
intersecting `a ∩ b` with `c` and intersecting `a` with `b ∩ c` fail
together or succeed with the same rule. -/
theorem reg_rules_intersect_chain (a b c : ieee80211_reg_rule)
    (ha : rule_wf a) (hb : rule_wf b) (hc : rule_wf c) :
    (reg_rules_intersect a b).bind (fun ab => reg_rules_intersect ab c) =
      (reg_rules_intersect b c).bind (fun bc => reg_rules_intersect a bc) := by
  obtain ⟨⟨sa, ea, wa⟩, ⟨pa, ga⟩, fa⟩ := a
  obtain ⟨⟨sb, eb, wb⟩, ⟨pb, gb⟩, fb⟩ := b
  obtain ⟨⟨sc, ec, wc⟩, ⟨pc, gc⟩, fc⟩ := c
  obtain ⟨Hsa, Hea, Hwa⟩ := ha
  obtain ⟨Hsb, Heb, Hwb⟩ := hb
  obtain ⟨Hsc, Hec, Hwc⟩ := hc
  simp only [U32] at Hsa Hea Hwa Hsb Heb Hwb Hsc Hec Hwc
  rw [reg_rules_intersect_eq_mk sa ea wa pa ga fa sb eb wb pb gb fb
      Hsa Hea Hsb Heb,
    reg_rules_intersect_eq_mk sb eb wb pb gb fb sc ec wc pc gc fc
      Hsb Heb Hsc Hec]
  by_cases h1 : max sa sb ≤ min ea eb
  · rw [if_pos h1, Option.some_bind]
    rw [reg_rules_intersect_eq_mk _ _ _ _ _ _ sc ec wc pc gc fc
      (by omega) (by omega) Hsc Hec]
    by_cases h2 : max sb sc ≤ min eb ec
    · rw [if_pos h2, Option.some_bind]
      rw [reg_rules_intersect_eq_mk sa ea wa pa ga fa _ _ _ _ _ _
        Hsa Hea (by omega) (by omega)]
      by_cases h3 : max (max sa sb) sc ≤ min (min ea eb) ec
      · rw [if_pos h3,
          if_pos (show max sa (max sb sc) ≤ min ea (min eb ec) by omega)]
        simp only [Option.some.injEq, ieee80211_reg_rule.mk.injEq,
          ieee80211_freq_range.mk.injEq, ieee80211_power_rule.mk.injEq]
        refine ⟨⟨?_, ?_, ?_⟩, ⟨?_, ?_⟩, ?_⟩
        · omega
        · omega
        · rw [show (ea ⊓ eb ⊓ ec - sa ⊔ sb ⊔ sc : Nat) =
              ea ⊓ (eb ⊓ ec) - sa ⊔ (sb ⊔ sc) by
            rw [min_assoc, max_assoc]]
          exact min_bw_assoc wa wb wc _ _ _ (by omega) (by omega)
        · omega
        · omega
        · exact Nat.lor_assoc fa fb fc
      · rw [if_neg h3,
          if_neg (show ¬ max sa (max sb sc) ≤ min ea (min eb ec) by omega)]
    · rw [if_neg h2, Option.none_bind,
        if_neg (show ¬ max (max sa sb) sc ≤ min (min ea eb) ec by omega)]
  · rw [if_neg h1, Option.none_bind]
    by_cases h2 : max sb sc ≤ min eb ec
    · rw [if_pos h2, Option.some_bind]
      rw [reg_rules_intersect_eq_mk sa ea wa pa ga fa _ _ _ _ _ _
        Hsa Hea (by omega) (by omega)]
      rw [if_neg (show ¬ max sa (max sb sc) ≤ min ea (min eb ec) by omega)]
    · rw [if_neg h2, Option.none_bind]

/-- The fill pass distributes over appending first-domain rules. -/
theorem cross_rules_append (x y l : List ieee80211_reg_rule) :
    cross_rules (x ++ y) l = cross_rules x l ++ cross_rules y l := by
  simp [cross_rules]

/-- Intersecting against an empty rule set yields no rules. -/
theorem cross_rules_nil_right (l : List ieee80211_reg_rule) :
    cross_rules l [] = [] := by
  induction l with
  | nil => rfl
  | cons a t ih =>
    simp only [cross_rules, List.map_cons, List.flatten_cons,
      List.filterMap_nil, List.nil_append] at *
    exact ih

/-- One row of the associativity argument: crossing the surviving
intersections of `a` with `l2` against `l3` is the same as crossing `l2`
with `l3` first and then intersecting each survivor with `a`. -/
theorem cross_rules_row (a : ieee80211_reg_rule)
    (l2 l3 : List ieee80211_reg_rule) (ha : rule_wf a)
    (h2 : ∀ r ∈ l2, rule_wf r) (h3 : ∀ r ∈ l3, rule_wf r) :
    cross_rules (l2.filterMap (fun b => reg_rules_intersect a b)) l3 =
      (cross_rules l2 l3).filterMap (fun x => reg_rules_intersect a x) := by
  induction l2 with
  | nil => rfl
  | cons b t ih =>
    have hb : rule_wf b := h2 b (List.mem_cons_self b t)
    have ht : ∀ r ∈ t, rule_wf r := fun r hr => h2 r (List.mem_cons_of_mem b hr)
    have htail := ih ht
    rw [show cross_rules (b :: t) l3 =
        l3.filterMap (fun c => reg_rules_intersect b c) ++ cross_rules t l3
      from rfl]
    rw [List.filterMap_append]
    rw [List.filterMap_cons]
    cases hab : reg_rules_intersect a b with
    | none =>
      rw [htail]
      have hhead : (l3.filterMap
          (fun c => reg_rules_intersect b c)).filterMap
          (fun x => reg_rules_intersect a x) = [] := by
        rw [List.filterMap_filterMap]
        rw [List.filterMap_congr (g := fun _ => none) ?_]
        · simp
        · intro c hc
          rw [← reg_rules_intersect_chain a b c ha hb (h3 c hc), hab,
            Option.none_bind]
      rw [hhead, List.nil_append]
    | some ab =>
      rw [show cross_rules (ab :: t.filterMap
          (fun b => reg_rules_intersect a b)) l3 =
          l3.filterMap (fun c => reg_rules_intersect ab c) ++
            cross_rules (t.filterMap (fun b => reg_rules_intersect a b)) l3
        from rfl]
      rw [htail]
      have hhead : l3.filterMap (fun c => reg_rules_intersect ab c) =
          (l3.filterMap (fun c => reg_rules_intersect b c)).filterMap
            (fun x => reg_rules_intersect a x) := by
        rw [List.filterMap_filterMap]
        apply List.filterMap_congr
        intro c hc
        rw [← reg_rules_intersect_chain a b c ha hb (h3 c hc), hab,
          Option.some_bind]
      rw [hhead]

/-- The fill pass is associative on 32-bit-clean rule sets: crossing
`l1 × l2` against `l3` equals crossing `l1` against `l2 × l3`. -/
theorem cross_rules_assoc (l1 l2 l3 : List ieee80211_reg_rule)
    (h1 : ∀ r ∈ l1, rule_wf r) (h2 : ∀ r ∈ l2, rule_wf r)
    (h3 : ∀ r ∈ l3, rule_wf r) :
    cross_rules (cross_rules l1 l2) l3 =
      cross_rules l1 (cross_rules l2 l3) := by
  induction l1 with
  | nil => rfl
  | cons a t ih =>
    have haw : rule_wf a := h1 a (List.mem_cons_self a t)
    have ht : ∀ r ∈ t, rule_wf r := fun r hr => h1 r (List.mem_cons_of_mem a hr)
    rw [show cross_rules (a :: t) l2 =
        l2.filterMap (fun b => reg_rules_intersect a b) ++ cross_rules t l2
      from rfl]
    rw [cross_rules_append, cross_rules_row a l2 l3 haw h2 h3, ih ht]
    rfl

/-- The closed form of `regdom_intersect` on explicit constructors. -/
theorem regdom_intersect_mk_mk (a1 a2 : Char × Char)
    (l1 l2 : List ieee80211_reg_rule) :
    regdom_intersect ⟨a1, l1⟩ ⟨a2, l2⟩ =
      if cross_rules l1 l2 = [] then none
      else some ⟨('9', '9'), cross_rules l1 l2⟩ :=
  regdom_intersect_eq ⟨a1, l1⟩ ⟨a2, l2⟩

/-- C8: on 32-bit-clean domains, reducing `[A, B, C]` by repeated pairwise
`intersect_domain` in encounter order yields exactly the same outcome —
the same domain, rules in the same order (hence in particular equal up to
rule ordering), or failure on both sides — as intersecting `A` with
`intersect_domain(B, C)`. -/
theorem claim_C8 (A B C : ieee80211_regdomain)
    (hA : regdomain_wf A) (hB : regdomain_wf B) (hC : regdomain_wf C) :
    ((regdom_intersect A B).bind fun ab => regdom_intersect ab C) =
      ((regdom_intersect B C).bind fun bc => regdom_intersect A bc) := by
  obtain ⟨aA, lA⟩ := A
  obtain ⟨aB, lB⟩ := B
  obtain ⟨aC, lC⟩ := C
  have hassoc := cross_rules_assoc lA lB lC hA hB hC
  rw [regdom_intersect_mk_mk aA aB lA lB, regdom_intersect_mk_mk aB aC lB lC]
  by_cases hab : cross_rules lA lB = []
  · rw [if_pos hab, Option.none_bind]
    by_cases hbc : cross_rules lB lC = []
    · rw [if_pos hbc, Option.none_bind]
    · rw [if_neg hbc, Option.some_bind, regdom_intersect_mk_mk]
      have htriple : cross_rules lA (cross_rules lB lC) = [] := by
        rw [← hassoc, hab]
        rfl
      rw [if_pos htriple]
  · rw [if_neg hab, Option.some_bind, regdom_intersect_mk_mk]
    by_cases hbc : cross_rules lB lC = []
    · rw [if_pos hbc, Option.none_bind]
      have htriple : cross_rules (cross_rules lA lB) lC = [] := by
        rw [hassoc, hbc, cross_rules_nil_right]
      rw [if_pos htriple]
    · rw [if_neg hbc, Option.some_bind, regdom_intersect_mk_mk, hassoc]

/-- C8 witness: `claim_C8` applied to the concrete domains `dom_A`,
`dom_B`, `dom_C`, whose rules are 32-bit clean. -/
theorem claim_C8_witness :
    ((regdom_intersect dom_A dom_B).bind fun ab => regdom_intersect ab dom_C) =
      ((regdom_intersect dom_B dom_C).bind fun bc =>
        regdom_intersect dom_A bc) :=
  claim_C8 dom_A dom_B dom_C (by decide) (by decide) (by decide)
